import Mathlib

/-!
# Verification of `du-by-user` (src/main.rs)

A shallow embedding of the Rust tool that scans a directory tree and reports
total disk usage per owning UID.  Machine integers (`u64`, `u32`) are embedded
as `Nat`; the only arithmetic the program performs on them is division by
nonzero constants, multiplication of a table constant by 10 (shown below to
stay under `2^64`), and accumulation of file sizes.  The directory walker and
the user-database lookup are external collaborators: the walker is embedded as
the stream of entries it yields (each either a metadata record or an error),
and the lookup as a function `Nat → Option String`.
-/

namespace DuByUser

/-- `DIVISORS_SI` from src/main.rs: decimal divisor table, largest first. -/
def DIVISORS_SI : List (Nat × String) :=
  [(1000000000000, "T"), (1000000000, "G"), (1000000, "M"), (1000, "K")]

/-- `DIVISORS_NON_SI` from src/main.rs: binary divisor table, largest first. -/
def DIVISORS_NON_SI : List (Nat × String) :=
  [(1099511627776, "T"), (1073741824, "G"), (1048576, "M"), (1024, "K")]

/-- The `SizeMode` enum from src/main.rs. -/
inductive SizeMode where
  | Bytes
  | Kilobytes
  | Megabytes
  | Gigabytes
  | Human
  deriving DecidableEq, Repr

/-- The presence bits of the command-line flags, i.e. the outcome of
`matches.is_present` for each declared argument of `cli()`. -/
structure ArgMatches where
  bytes : Bool
  kilobytes : Bool
  megabytes : Bool
  gigabytes : Bool
  human : Bool
  si : Bool
  deriving DecidableEq, Repr

/-- `SizeMode::from_matches` from src/main.rs. -/
def SizeMode.from_matches (m : ArgMatches) : SizeMode :=
  if m.gigabytes then SizeMode.Gigabytes
  else if m.megabytes then SizeMode.Megabytes
  else if m.kilobytes then SizeMode.Kilobytes
  else if m.human then SizeMode.Human
  else SizeMode.Bytes

/-- The `SizeFormatter` struct from src/main.rs. -/
structure SizeFormatter where
  mode : SizeMode
  si : Bool
  deriving DecidableEq, Repr

/-- `SizeFormatter::from_matches` from src/main.rs. -/
def SizeFormatter.from_matches (m : ArgMatches) : SizeFormatter :=
  { si := m.si, mode := SizeMode.from_matches m }

/-- `SizeFormatter::get_parts_divisor` from src/main.rs. -/
def SizeFormatter.get_parts_divisor (_f : SizeFormatter) (size divisor : Nat) :
    Nat × Option String :=
  (size / divisor, none)

/-- The `for (divisor, unit) in divisors` loop inside
`SizeFormatter::get_parts_human` (src/main.rs lines 144-149). -/
def get_parts_human_loop (size : Nat) : List (Nat × String) → Nat × Option String
  | [] => (size, some "B")
  | (divisor, unit) :: rest =>
      if divisor * 10 < size then (size / divisor, some unit)
      else get_parts_human_loop size rest

/-- `SizeFormatter::get_parts_human` from src/main.rs. -/
def SizeFormatter.get_parts_human (f : SizeFormatter) (size : Nat) :
    Nat × Option String :=
  get_parts_human_loop size (if f.si then DIVISORS_SI else DIVISORS_NON_SI)

/-- `SizeFormatter::get_parts` from src/main.rs. -/
def SizeFormatter.get_parts (f : SizeFormatter) (size : Nat) : Nat × Option String :=
  match f.mode, f.si with
  | SizeMode.Bytes, _ => (size, none)
  | SizeMode.Kilobytes, false => f.get_parts_divisor size 1024
  | SizeMode.Kilobytes, true => f.get_parts_divisor size 1000
  | SizeMode.Megabytes, false => f.get_parts_divisor size 1048576
  | SizeMode.Megabytes, true => f.get_parts_divisor size 1000000
  | SizeMode.Gigabytes, false => f.get_parts_divisor size 1073741824
  | SizeMode.Gigabytes, true => f.get_parts_divisor size 1000000000
  | SizeMode.Human, _ => f.get_parts_human size

/-- The `Display` implementation for `FormattedSize` (src/main.rs lines
109-118): write the base, then the unit if present. -/
def FormattedSize.display (f : SizeFormatter) (size : Nat) : String :=
  match f.get_parts size with
  | (base, some unit) => toString base ++ unit
  | (base, none) => toString base

/-- The part of a `std::fs::Metadata` that main consults: `is_file()`,
`uid()` and `size()` (via `MetadataExt`). -/
structure Metadata where
  is_file : Bool
  uid : Nat
  size : Nat
  deriving DecidableEq, Repr

/-- The effect of `*by_user.entry(uid).or_insert_with(|| 0) += size` on the
`HashMap<u32, u64>`, embedded as an association list with distinct keys. -/
def updateAgg : List (Nat × Nat) → Nat → Nat → List (Nat × Nat)
  | [], uid, size => [(uid, size)]
  | (k, v) :: rest, uid, size =>
      if k = uid then (k, v + size) :: rest
      else (k, v) :: updateAgg rest uid size

/-- One iteration of the `for entry in walker` loop of main (src/main.rs lines
179-185): regular files add their size to their owner's total, everything
else (including errored entries) is skipped. -/
def walk_step (acc : List (Nat × Nat)) (entry : Option Metadata) : List (Nat × Nat) :=
  match entry with
  | some metadata =>
      if metadata.is_file then updateAgg acc metadata.uid metadata.size else acc
  | none => acc

/-- The whole `for entry in walker` loop of main: fold `walk_step` over the
stream of entries the walker yields, starting from the empty map. -/
def walk_aggregate (entries : List (Option Metadata)) : List (Nat × Nat) :=
  entries.foldl walk_step []

/-- Whether a successfully stat'ed entry is a regular file owned by `uid`. -/
def contributes (md : Metadata) (uid : Nat) : Bool :=
  md.is_file && md.uid == uid

/-- Whether the stream contains at least one successfully stat'ed regular
file owned by `uid`. -/
def has_owner (entries : List (Option Metadata)) (uid : Nat) : Bool :=
  entries.any fun entry =>
    match entry with
    | some md => contributes md uid
    | none => false

/-- The sum of the metadata-reported sizes of the regular files owned by
`uid` among the successfully stat'ed entries of the stream. -/
def owned_total : List (Option Metadata) → Nat → Nat
  | [], _ => 0
  | some md :: rest, uid =>
      (if contributes md uid then md.size else 0) + owned_total rest uid
  | none :: rest, uid => owned_total rest uid

/-- `.sorted_by_key(|&(_, v)| v)` from main (src/main.rs line 188):
itertools collects and stable-sorts by the accumulated byte total. -/
def sortAgg (by_user : List (Nat × Nat)) : List (Nat × Nat) :=
  by_user.mergeSort fun a b => Nat.ble a.2 b.2

/-- The UID→name resolution of main (src/main.rs lines 190-192):
`users::get_user_by_uid(uid).map(name).unwrap_or_else(|| uid.to_string())`,
with the host user database embedded as `lk : Nat → Option String`. -/
def user_name (lk : Nat → Option String) (user_id : Nat) : String :=
  match lk user_id with
  | some n => n
  | none => toString user_id

/-- The reporting loop of main (src/main.rs lines 186-194): sort the map by
value and print `{formatted}\t{name}` (with `println!` appending the LF). -/
def report (f : SizeFormatter) (lk : Nat → Option String)
    (by_user : List (Nat × Nat)) : List String :=
  (sortAgg by_user).map fun p =>
    FormattedSize.display f p.2 ++ "\t" ++ user_name lk p.1 ++ "\n"

/-- `main` after successful argument parsing, as a function from the parsed
flag bits, the stream the walker yields, and the user database to (stdout
lines, exit code).  `main` returns `()` and never calls `exit`, so the
process exit code on this path is always 0. -/
def main_run (m : ArgMatches) (entries : List (Option Metadata))
    (lk : Nat → Option String) : List String × Nat :=
  let formatter := SizeFormatter.from_matches m
  let by_user := walk_aggregate entries
  (report formatter lk by_user, 0)

/-- How many of the five size-mode flags are present. -/
def mode_flag_count (m : ArgMatches) : Nat :=
  (if m.bytes then 1 else 0) + (if m.kilobytes then 1 else 0) +
    (if m.megabytes then 1 else 0) + (if m.gigabytes then 1 else 0) +
    (if m.human then 1 else 0)

/-- Modelled from the spec: the rejection of conflicting size-mode flags is
performed by clap's `ArgGroup` (configured in `cli()`, src/main.rs lines
70-77) inside `get_matches`, whose body is not part of this repository.  Per
the spec, giving more than one flag of the group is a usage error: the
process exits with code 2 and writes nothing to stdout; otherwise `main`
proceeds with the parsed matches. -/
def parse_and_run (m : ArgMatches) (entries : List (Option Metadata))
    (lk : Nat → Option String) : List String × Nat :=
  if 2 ≤ mode_flag_count m then ([], 2) else main_run m entries lk

/-- Rust `u64` division, checked: division by zero panics. -/
def checked_div (a b : Nat) : Option Nat :=
  if b = 0 then none else some (a / b)

/-- Rust `u64` multiplication, checked: a product outside the `u64` range
overflows (a panic in debug builds). -/
def checked_mul (a b : Nat) : Option Nat :=
  if a * b < 2 ^ 64 then some (a * b) else none

/-- `get_parts_divisor` with its division checked. -/
def SizeFormatter.get_parts_divisor_checked (_f : SizeFormatter)
    (size divisor : Nat) : Option (Nat × Option String) :=
  (checked_div size divisor).map fun q => (q, none)

/-- The `get_parts_human` loop with the `divisor * 10` multiplication and the
`size / divisor` division checked. -/
def get_parts_human_loop_checked (size : Nat) :
    List (Nat × String) → Option (Nat × Option String)
  | [] => some (size, some "B")
  | (divisor, unit) :: rest => do
      let bound ← checked_mul divisor 10
      if bound < size then
        let q ← checked_div size divisor
        pure (q, some unit)
      else
        get_parts_human_loop_checked size rest

/-- `get_parts` with every arithmetic operation checked: `none` means the
Rust original would have panicked. -/
def SizeFormatter.get_parts_checked (f : SizeFormatter) (size : Nat) :
    Option (Nat × Option String) :=
  match f.mode, f.si with
  | SizeMode.Bytes, _ => some (size, none)
  | SizeMode.Kilobytes, false => f.get_parts_divisor_checked size 1024
  | SizeMode.Kilobytes, true => f.get_parts_divisor_checked size 1000
  | SizeMode.Megabytes, false => f.get_parts_divisor_checked size 1048576
  | SizeMode.Megabytes, true => f.get_parts_divisor_checked size 1000000
  | SizeMode.Gigabytes, false => f.get_parts_divisor_checked size 1073741824
  | SizeMode.Gigabytes, true => f.get_parts_divisor_checked size 1000000000
  | SizeMode.Human, _ =>
      get_parts_human_loop_checked size
        (if f.si then DIVISORS_SI else DIVISORS_NON_SI)

/-- Key lookup in the association list embedding the `HashMap<u32, u64>`. -/
def lookupAgg : List (Nat × Nat) → Nat → Option Nat
  | [], _ => none
  | (k, v) :: rest, u => if k = u then some v else lookupAgg rest u

theorem lookupAgg_updateAgg (acc : List (Nat × Nat)) (uid size u : Nat) :
    lookupAgg (updateAgg acc uid size) u =
      if uid = u then some ((lookupAgg acc u).getD 0 + size) else lookupAgg acc u := by
  induction acc with
  | nil =>
      by_cases h : uid = u <;> simp [updateAgg, lookupAgg, h]
  | cons p rest ih =>
      obtain ⟨k, v⟩ := p
      by_cases hk : k = uid
      · subst hk
        by_cases h : k = u <;> simp [updateAgg, lookupAgg, h]
      · by_cases h : k = u
        · subst h
          simp [updateAgg, hk, lookupAgg]
          rw [if_neg fun hh => hk hh.symm]
        · simp [updateAgg, hk, lookupAgg, h, ih]

theorem lookupAgg_foldl_walk (entries : List (Option Metadata)) :
    ∀ (acc : List (Nat × Nat)) (u : Nat),
      lookupAgg (entries.foldl walk_step acc) u =
        match lookupAgg acc u with
        | some v => some (v + owned_total entries u)
        | none =>
            if has_owner entries u then some (owned_total entries u) else none := by
  induction entries with
  | nil =>
      intro acc u
      cases h : lookupAgg acc u <;> simp [owned_total, has_owner, h]
  | cons e rest ih =>
      intro acc u
      match e with
      | none =>
          rw [List.foldl_cons]
          have hstep : walk_step acc none = acc := rfl
          rw [hstep, ih acc u]
          cases h : lookupAgg acc u <;> simp [owned_total, has_owner, h]
      | some md =>
          by_cases hf : md.is_file
          · by_cases hu : md.uid = u
            · rw [List.foldl_cons]
              have hstep : walk_step acc (some md) = updateAgg acc md.uid md.size := by
                simp [walk_step, hf]
              rw [hstep, ih _ u, lookupAgg_updateAgg]
              have hc : contributes md u = true := by
                simp [contributes, hf, hu]
              cases h : lookupAgg acc u <;>
                simp [owned_total, has_owner, hc, h, hu, Nat.add_assoc]
            · rw [List.foldl_cons]
              have hstep : walk_step acc (some md) = updateAgg acc md.uid md.size := by
                simp [walk_step, hf]
              have hc : contributes md u = false := by
                simp [contributes, hu]
              rw [hstep, ih _ u, lookupAgg_updateAgg]
              cases h : lookupAgg acc u <;>
                simp [owned_total, has_owner, hc, h, hu]
          · rw [List.foldl_cons]
            have hstep : walk_step acc (some md) = acc := by
              simp [walk_step, hf]
            have hc : contributes md u = false := by
              simp [contributes, hf]
            rw [hstep, ih acc u]
            cases h : lookupAgg acc u <;> simp [owned_total, has_owner, hc, h]

/-- C1: a UID appears as a key of the aggregate exactly when the traversal
stream contains a successfully stat'ed regular file it owns, and the total
stored for it is then the sum of the metadata-reported sizes of those files;
errored entries and non-regular files contribute nothing. -/
theorem aggregate_per_uid (entries : List (Option Metadata)) (uid : Nat) :
    lookupAgg (walk_aggregate entries) uid =
      if has_owner entries uid then some (owned_total entries uid) else none := by
  have h := lookupAgg_foldl_walk entries [] uid
  simpa [walk_aggregate, lookupAgg] using h


theorem human_loop_eq_find (size : Nat) (l : List (Nat × String)) :
    get_parts_human_loop size l =
      match l.find? (fun p => decide (10 * p.1 < size)) with
      | some (d, u) => (size / d, some u)
      | none => (size, some "B") := by
  induction l with
  | nil => rfl
  | cons p rest ih =>
      obtain ⟨d, u⟩ := p
      by_cases hlt : d * 10 < size
      · have : 10 * d < size := by rwa [Nat.mul_comm]
        simp [get_parts_human_loop, List.find?, hlt, this]
      · have : ¬ 10 * d < size := by rwa [Nat.mul_comm]
        simp [get_parts_human_loop, List.find?, hlt, this, ih]

/-- C3: Human mode scans the active divisor table largest-unit first and
returns `(size / D, unit)` for the first divisor `D` with `size > 10·D`; the
comparison is strict, so a size of exactly `10·D` falls through to a lower
tier while `10·D + 1` renders at tier `D`; if no listed unit qualifies the
result is `(size, "B")`. -/
theorem human_mode_first_qualifying (f : SizeFormatter) (size : Nat) :
    (f.get_parts_human size =
      match (if f.si then DIVISORS_SI else DIVISORS_NON_SI).find?
          (fun p => decide (10 * p.1 < size)) with
        | some (d, u) => (size / d, some u)
        | none => (size, some "B")) ∧
    (∀ d u, (d, u) ∈ (if f.si then DIVISORS_SI else DIVISORS_NON_SI) →
      (f.get_parts_human (10 * d)).2 ≠ some u ∧
      f.get_parts_human (10 * d + 1) = (10, some u)) := by
  constructor
  · exact human_loop_eq_find size _
  · intro d u hmem
    obtain ⟨mode, si⟩ := f
    cases si <;>
      simp only [SizeFormatter.get_parts_human, DIVISORS_SI, DIVISORS_NON_SI,
        List.mem_cons, List.not_mem_nil, or_false, if_true, if_false,
        Bool.false_eq_true, Prod.mk.injEq] at hmem ⊢ <;>
      rcases hmem with ⟨rfl, rfl⟩ | ⟨rfl, rfl⟩ | ⟨rfl, rfl⟩ | ⟨rfl, rfl⟩ <;>
      exact ⟨by decide, by decide⟩


/-- C4: the explicit Kilobytes/Megabytes/Gigabytes modes return
`(size / divisor, no suffix)` with truncating division, the divisor chosen
by (mode, si) from the fixed table; Bytes mode returns `(size, no suffix)`. -/
theorem explicit_modes_divide (si : Bool) (size : Nat) :
    (SizeFormatter.mk SizeMode.Bytes si).get_parts size = (size, none) ∧
    (SizeFormatter.mk SizeMode.Kilobytes si).get_parts size
      = (size / (if si then 1000 else 1024), none) ∧
    (SizeFormatter.mk SizeMode.Megabytes si).get_parts size
      = (size / (if si then 1000000 else 1048576), none) ∧
    (SizeFormatter.mk SizeMode.Gigabytes si).get_parts size
      = (size / (if si then 1000000000 else 1073741824), none) := by
  cases si <;>
    simp [SizeFormatter.get_parts, SizeFormatter.get_parts_divisor]

theorem human_loop_unit (size : Nat) (l : List (Nat × String)) :
    ∃ u, (get_parts_human_loop size l).2 = some u ∧
      (u ∈ l.map Prod.snd ∨ u = "B") := by
  induction l with
  | nil => exact ⟨"B", rfl, Or.inr rfl⟩
  | cons p rest ih =>
      obtain ⟨d, un⟩ := p
      by_cases hlt : d * 10 < size
      · exact ⟨un, by simp [get_parts_human_loop, hlt], Or.inl (by simp)⟩
      · obtain ⟨u, hu, hmem⟩ := ih
        refine ⟨u, by simp [get_parts_human_loop, hlt, hu], ?_⟩
        rcases hmem with hmem | hmem
        · exact Or.inl (by simp [hmem])
        · exact Or.inr hmem

/-- C5: a unit suffix is emitted exactly in Human mode — the other four modes
always return `none` as the suffix, Human always returns one of "K", "M",
"G", "T", "B" — and the display string is the integer immediately followed by
the suffix with no separating space. -/
theorem suffix_iff_human (f : SizeFormatter) (size : Nat) :
    (f.mode = SizeMode.Human →
      ∃ u, (f.get_parts size).2 = some u ∧
        (u = "K" ∨ u = "M" ∨ u = "G" ∨ u = "T" ∨ u = "B")) ∧
    (f.mode ≠ SizeMode.Human → (f.get_parts size).2 = none) ∧
    FormattedSize.display f size
      = toString (f.get_parts size).1 ++ ((f.get_parts size).2.getD "") := by
  obtain ⟨mode, si⟩ := f
  refine ⟨?_, ?_, ?_⟩
  · intro hm
    simp only at hm
    subst hm
    have h := human_loop_unit size (if si then DIVISORS_SI else DIVISORS_NON_SI)
    obtain ⟨u, hu, hmem⟩ := h
    refine ⟨u, ?_, ?_⟩
    · simpa [SizeFormatter.get_parts, SizeFormatter.get_parts_human] using hu
    · cases si <;>
        simp [DIVISORS_SI, DIVISORS_NON_SI] at hmem <;> tauto
  · intro hm
    cases mode <;> cases si <;>
      simp_all [SizeFormatter.get_parts, SizeFormatter.get_parts_divisor]
  · cases h : (SizeFormatter.mk mode si).get_parts size with
    | mk base unit =>
        cases unit <;> simp [FormattedSize.display, h]

/-- C6: when several size-mode flags co-occur the selected mode follows the
precedence Gigabytes > Megabytes > Kilobytes > Human > Bytes, and with no
size-mode flag the mode is Bytes. -/
theorem mode_precedence (m : ArgMatches) :
    (m.gigabytes = true → SizeMode.from_matches m = SizeMode.Gigabytes) ∧
    (m.gigabytes = false → m.megabytes = true →
      SizeMode.from_matches m = SizeMode.Megabytes) ∧
    (m.gigabytes = false → m.megabytes = false → m.kilobytes = true →
      SizeMode.from_matches m = SizeMode.Kilobytes) ∧
    (m.gigabytes = false → m.megabytes = false → m.kilobytes = false →
      m.human = true → SizeMode.from_matches m = SizeMode.Human) ∧
    (m.gigabytes = false → m.megabytes = false → m.kilobytes = false →
      m.human = false → SizeMode.from_matches m = SizeMode.Bytes) := by
  obtain ⟨b, k, mm, g, h, s⟩ := m
  refine ⟨?_, ?_, ?_, ?_, ?_⟩ <;> intros <;> simp_all [SizeMode.from_matches]

theorem human_loop_checked_eq (size : Nat) (l : List (Nat × String))
    (h : ∀ p ∈ l, 0 < p.1 ∧ p.1 * 10 < 2 ^ 64) :
    get_parts_human_loop_checked size l = some (get_parts_human_loop size l) := by
  induction l with
  | nil => rfl
  | cons p rest ih =>
      obtain ⟨d, u⟩ := p
      have hd : 0 < d := (h (d, u) (List.mem_cons_self _ _)).1
      have hmul : d * 10 < 2 ^ 64 := (h (d, u) (List.mem_cons_self _ _)).2
      have hmul' : d * 10 < 18446744073709551616 := by simpa using hmul
      have hrest := fun q hq => h q (List.mem_cons_of_mem _ hq)
      by_cases hlt : d * 10 < size
      · simp [get_parts_human_loop_checked, get_parts_human_loop, checked_mul,
          checked_div, hmul', hlt, Nat.pos_iff_ne_zero.mp hd]
      · simp [get_parts_human_loop_checked, get_parts_human_loop, checked_mul,
          hmul', hlt, ih hrest]

/-- C10: the formatter is total — with every division and multiplication
checked (`none` = the Rust original would panic), `get_parts` always returns
`some` of the unchecked result, and every divisor in both tables is a nonzero
constant whose product with 10 stays below `2^64`. -/
theorem get_parts_total (f : SizeFormatter) (size : Nat) :
    f.get_parts_checked size = some (f.get_parts size) ∧
    ((DIVISORS_SI ++ DIVISORS_NON_SI).all fun p =>
      decide (0 < p.1) && decide (p.1 * 10 < 2 ^ 64)) = true := by
  constructor
  · obtain ⟨mode, si⟩ := f
    have hsi : get_parts_human_loop_checked size DIVISORS_SI
        = some (get_parts_human_loop size DIVISORS_SI) :=
      human_loop_checked_eq size DIVISORS_SI (by decide)
    have hnon : get_parts_human_loop_checked size DIVISORS_NON_SI
        = some (get_parts_human_loop size DIVISORS_NON_SI) :=
      human_loop_checked_eq size DIVISORS_NON_SI (by decide)
    cases mode <;> cases si <;>
      simp [SizeFormatter.get_parts_checked, SizeFormatter.get_parts,
        SizeFormatter.get_parts_divisor_checked, SizeFormatter.get_parts_divisor,
        SizeFormatter.get_parts_human, checked_div, hsi, hnon]
  · decide

/-- C7: the report has exactly one line per UID in the aggregate, and the
lines are ordered by ascending underlying byte total (the accumulated
numeric total, not the rendered string). -/
theorem report_one_line_per_uid_sorted (f : SizeFormatter)
    (lk : Nat → Option String) (by_user : List (Nat × Nat)) :
    (report f lk by_user).length = by_user.length ∧
    List.Perm (sortAgg by_user) by_user ∧
    (sortAgg by_user).Pairwise fun a b => a.2 ≤ b.2 := by
  refine ⟨?_, List.mergeSort_perm by_user _, ?_⟩
  · simp [report, sortAgg]
  · have h := @List.sorted_mergeSort (Nat × Nat)
      (fun a b => Nat.ble a.2 b.2)
      (fun a b c h1 h2 => by
        simp only [Nat.ble_eq] at h1 h2 ⊢
        omega)
      (fun a b => by
        simp only [Bool.or_eq_true, Nat.ble_eq]
        omega)
      by_user
    exact h.imp fun hab => by simpa using hab

/-- C8: each output line is `<formatted-size><TAB><name><LF>` where the name
is the login name when the user-database lookup succeeds and the decimal UID
otherwise. -/
theorem report_line_format (m : ArgMatches) (entries : List (Option Metadata))
    (lk : Nat → Option String) :
    (main_run m entries lk).1 =
      (sortAgg (walk_aggregate entries)).map fun p =>
        FormattedSize.display (SizeFormatter.from_matches m) p.2 ++ "\t" ++
          (match lk p.1 with
           | some n => n
           | none => toString p.1) ++ "\n" := rfl

/-- C2 (as stated) is false: when the root cannot be opened the walker
yields a single error entry, and the program swallows it like any per-entry
error — stdout stays empty but the exit code is 0, not 1. -/
theorem root_error_not_fatal_cex :
    (main_run ⟨false, false, false, false, false, false⟩ [none] fun _ => none).1 = [] ∧
    ¬ (main_run ⟨false, false, false, false, false, false⟩ [none] fun _ => none).2 = 1 := by
  constructor
  · simp [main_run, report, walk_aggregate, walk_step, sortAgg, List.foldl_cons]
  · simp [main_run]

/-- C2 amended: a failure to open the root is swallowed exactly like a
per-entry error — the program writes nothing to stdout and exits 0 — and an
errored entry anywhere in the traversal contributes nothing while traversal
continues. -/
theorem root_error_swallowed (m : ArgMatches) (lk : Nat → Option String)
    (l1 l2 : List (Option Metadata)) :
    main_run m [none] lk = ([], 0) ∧
    walk_aggregate (l1 ++ none :: l2) = walk_aggregate (l1 ++ l2) := by
  constructor
  · simp [main_run, report, walk_aggregate, walk_step, sortAgg, List.foldl_cons]
  · simp [walk_aggregate, List.foldl_append, List.foldl_cons, walk_step]

/-- C9: an invocation with two or more size-mode flags is rejected as a
usage error: exit code 2 and nothing on stdout. -/
theorem two_mode_flags_rejected (m : ArgMatches)
    (entries : List (Option Metadata)) (lk : Nat → Option String)
    (h : 2 ≤ mode_flag_count m) :
    parse_and_run m entries lk = ([], 2) := by
  simp [parse_and_run, h]

theorem two_mode_flags_rejected_witness :
    2 ≤ mode_flag_count ⟨true, true, false, false, false, false⟩ ∧
    parse_and_run ⟨true, true, false, false, false, false⟩ [] (fun _ => none)
      = ([], 2) :=
  ⟨by decide,
   two_mode_flags_rejected ⟨true, true, false, false, false, false⟩ [] (fun _ => none)
     (by decide)⟩

theorem human_mode_first_qualifying_witness :
    ((1024 : Nat), "K") ∈ (if (SizeFormatter.mk SizeMode.Human false).si
        then DIVISORS_SI else DIVISORS_NON_SI) ∧
    ((SizeFormatter.mk SizeMode.Human false).get_parts_human (10 * 1024)).2
        ≠ some "K" ∧
    (SizeFormatter.mk SizeMode.Human false).get_parts_human (10 * 1024 + 1)
        = (10, some "K") :=
  ⟨by decide,
   (human_mode_first_qualifying (SizeFormatter.mk SizeMode.Human false) 0).2
     1024 "K" (by decide)⟩

theorem suffix_iff_human_witness :
    (∃ u, ((SizeFormatter.mk SizeMode.Human false).get_parts 20480).2 = some u ∧
      (u = "K" ∨ u = "M" ∨ u = "G" ∨ u = "T" ∨ u = "B")) ∧
    ((SizeFormatter.mk SizeMode.Bytes false).get_parts 20480).2 = none :=
  ⟨(suffix_iff_human (SizeFormatter.mk SizeMode.Human false) 20480).1 rfl,
   (suffix_iff_human (SizeFormatter.mk SizeMode.Bytes false) 20480).2.1 (by decide)⟩

theorem mode_precedence_witness :
    SizeMode.from_matches ⟨true, true, true, true, true, false⟩
        = SizeMode.Gigabytes ∧
    SizeMode.from_matches ⟨false, false, false, false, false, false⟩
        = SizeMode.Bytes :=
  ⟨(mode_precedence ⟨true, true, true, true, true, false⟩).1 rfl,
   (mode_precedence ⟨false, false, false, false, false, false⟩).2.2.2.2 rfl rfl rfl rfl⟩

end DuByUser
